import Mathlib

/-!
Shallow embedding of the cell-reference and resolution layer of turbo-tasks
(`turbopack/crates/turbo-tasks/src/vc/mod.rs`): the `Vc` handle, its
equality/hash contract, the resolution protocol, cell creation, the dynamic
cast operations, the debug identifier and the collectibles channel.

Collaborators that live outside the embedded file (the scheduler's
`RawVc::resolve`/`resolve_trait`, `create_local_cell`, the type registry and
the collectibles backend) are modelled from the specification; each such
definition carries a doc comment saying so.
-/

/-- Task identifier (`TaskId`), owned by the scheduler. -/
abbrev TaskId := Nat

/-- Execution identifier (`ExecutionId`) of one in-flight execution. -/
abbrev ExecutionId := Nat

/-- Runtime value-type identifier (`ValueTypeId`) from the global registry. -/
abbrev ValueTypeId := Nat

/-- Capability-set (trait) identifier (`TraitTypeId`) from the global registry. -/
abbrev TraitTypeId := Nat

/-- Identifier of a cell local to one execution (`LocalCellId`). -/
abbrev LocalCellId := Nat

/-- The `CellId` of a task cell: the runtime value-type id plus an index into
the task's cells of that type (`CellId { type_id, index }`). -/
structure CellId where
  type_id : ValueTypeId
  index : Nat
deriving DecidableEq, Repr

/-- The untyped node locator `RawVc`: `TaskOutput` is the unsettled "eventual
output of this task", `TaskCell` a settled slot of a task, `LocalCell` a
settled slot scoped to one in-flight execution. -/
inductive RawVc where
  | taskOutput (task : TaskId)
  | taskCell (task : TaskId) (cell : CellId)
  | localCell (execution : ExecutionId) (local_id : LocalCellId)
deriving DecidableEq, Repr

/-- Settledness of a locator per the spec's data model: `TaskCell` and
`LocalCell` are settled slots, `TaskOutput` (pending output) is unsettled. -/
def RawVc.isSettled : RawVc → Bool
  | .taskOutput _ => false
  | .taskCell _ _ => true
  | .localCell _ _ => true

/-- Injective numeric encoding of a locator, standing in for the bytes a Rust
`Hasher` would be fed by `RawVc`'s derived `Hash` implementation. -/
def RawVc.encode : RawVc → Nat
  | .taskOutput t => 3 * t
  | .taskCell t c => 3 * Nat.pair t (Nat.pair c.type_id c.index) + 1
  | .localCell e l => 3 * Nat.pair e l + 2

/-- Hash-state transition for a locator: feeding a `RawVc` to a 64-bit hasher
in state `state` yields this new state. -/
def RawVc.hashState (state : Nat) (r : RawVc) : Nat :=
  (state * 1000003 + r.encode) % 2 ^ 64

/-- The typed handle `Vc<T>`: its only runtime payload is the locator `node`;
the type parameter is a compile-time-only tag (`PhantomData<T>` in the
source). -/
structure Vc (α : Type) where
  node : RawVc

/-- Equality of handles, from `impl PartialEq for Vc<T>`:
`self.node == other.node`, i.e. structural equality of the locators alone. -/
instance instBEqVc {α : Type} : BEq (Vc α) :=
  ⟨fun a b => decide (a.node = b.node)⟩

/-- Hashing of a handle, from `impl Hash for Vc<T>`: `self.node.hash(state)`,
i.e. the handle hashes exactly as its locator does. -/
def Vc.hashState {α : Type} (state : Nat) (vc : Vc α) : Nat :=
  RawVc.hashState state vc.node

/-- The `Vc::into_raw` accessor: returns the wrapped `RawVc` unchanged. -/
def Vc.into_raw {α : Type} (vc : Vc α) : RawVc :=
  vc.node

/-- Construction of a typed handle from a raw locator,
from `impl From<RawVc> for Vc<T>`: stores the locator unchanged, with no
runtime type check. -/
def Vc.fromRaw (α : Type) (node : RawVc) : Vc α :=
  { node := node }

/-- The compile-time upcast `Vc::upcast::<K>`: rebuilds the handle with the
same locator under the broader capability tag; the locator is untouched and
no runtime work happens. The `T: Upcast<K>` bound is compile-time only and
has no runtime content, so it does not appear here. -/
def Vc.upcast {α : Type} (β : Type) (vc : Vc α) : Vc β :=
  { node := vc.node }

/-- Fatal failure of an upstream task, propagated verbatim through
resolution and reads (`anyhow::Error` at the embedded layer's boundary). -/
structure FatalError where
  msg : String
deriving DecidableEq, Repr

/-- Modelled from the spec: the scheduler collaborator behind `RawVc`, which
is not under `src/`. `outputOf` is the settled task cell the scheduler
assigns as a pending task's output (chasing any chain of task outputs), or
the task's fatal error; `upgradeLocal` is the implicit upgrade step that
converts a local cell into a normal task cell at resolution time. -/
structure Scheduler where
  outputOf : TaskId → Except FatalError (TaskId × CellId)
  upgradeLocal : ExecutionId → LocalCellId → TaskId × CellId

/-- Modelled from the spec: `locator.resolve() -> settled_locator |
fatal_error`. A task cell is already canonical and returned unchanged; a
local cell is upgraded to a task cell; a pending task output is rewritten to
the settled cell the scheduler assigns, or propagates the task's fatal
error. -/
def RawVc.resolve (s : Scheduler) : RawVc → Except FatalError RawVc
  | .taskCell t c => .ok (.taskCell t c)
  | .localCell e l => .ok (.taskCell (s.upgradeLocal e l).1 (s.upgradeLocal e l).2)
  | .taskOutput t =>
    match s.outputOf t with
    | .error e => .error e
    | .ok p => .ok (.taskCell p.1 p.2)

/-- The `Vc::resolve` method: rebuilds the handle around
`self.node.resolve().await?`, rethrowing any fatal error. -/
def Vc.resolve {α : Type} (s : Scheduler) (vc : Vc α) : Except FatalError (Vc α) :=
  match RawVc.resolve s vc.node with
  | .error e => .error e
  | .ok node => .ok { node := node }

/-- Helper: a successful resolution always yields the canonical `TaskCell`
variant. -/
theorem RawVc.resolve_ok_taskCell (s : Scheduler) {n r : RawVc}
    (h : RawVc.resolve s n = Except.ok r) : ∃ t c, r = RawVc.taskCell t c := by
  cases n with
  | taskOutput t =>
    cases ho : s.outputOf t with
    | error e => simp [RawVc.resolve, ho] at h
    | ok p =>
      simp [RawVc.resolve, ho] at h
      exact ⟨p.1, p.2, h.symm⟩
  | taskCell t c =>
    simp [RawVc.resolve] at h
    exact ⟨t, c, h.symm⟩
  | localCell e l =>
    simp [RawVc.resolve] at h
    exact ⟨_, _, h.symm⟩

/-- Concrete scheduler used for closed evaluations: every pending task output
settles to cell `⟨0, 0⟩` of task 1, every local cell upgrades to cell
`⟨0, 0⟩` of task 2. -/
def schedA : Scheduler where
  outputOf := fun _ => .ok (1, ⟨0, 0⟩)
  upgradeLocal := fun _ _ => (2, ⟨0, 0⟩)

/-- C1: for handles of the same type, `a == b` holds exactly when the wrapped
locators are equal, the hash of a handle is exactly the hash of its locator
(same hasher-state transition), and handles at different locators are unequal;
neither operation consults the type tag or any pointed-to value. -/
theorem vc_eq_hash_locator_only {α : Type} (state : Nat) (a b : Vc α) :
    ((a == b) = true ↔ a.node = b.node)
    ∧ Vc.hashState state a = RawVc.hashState state a.node
    ∧ (a.node ≠ b.node → (a == b) = false) := by
  exact ⟨decide_eq_true_iff, rfl, fun hne => decide_eq_false hne⟩

/-- Witness for C1 at concrete handles with distinct locators. -/
theorem vc_eq_hash_locator_only_witness :
    ((Vc.mk (α := Unit) (RawVc.taskOutput 0) == Vc.mk (RawVc.taskOutput 1)) = false) :=
  (vc_eq_hash_locator_only 0 (Vc.mk (RawVc.taskOutput 0))
    (Vc.mk (RawVc.taskOutput 1))).2.2 (by decide)

/-- C3: `Vc::upcast` is total (it is a plain function) and leaves the locator
unchanged: `into_raw (upcast vc) = into_raw vc`. -/
theorem upcast_preserves_raw {α : Type} (β : Type) (vc : Vc α) :
    Vc.into_raw (Vc.upcast β vc) = Vc.into_raw vc :=
  rfl

/-- C10: `From<RawVc>` stores the locator unchanged and forms an exact round
trip with `into_raw`, in both directions and for every type tag, with no
runtime type check anywhere. -/
theorem from_raw_round_trip {α : Type} (r : RawVc) (vc : Vc α) :
    Vc.into_raw (Vc.fromRaw α r) = r ∧ Vc.fromRaw α (Vc.into_raw vc) = vc :=
  ⟨rfl, rfl⟩

/-- C2 counterexample: a `LocalCell` locator is settled per the data model,
yet resolving a handle wrapping it does not return the handle unchanged —
resolution upgrades the local cell to a task cell. -/
theorem resolve_settled_unchanged_cex :
    RawVc.isSettled (RawVc.localCell 0 0) = true
    ∧ Vc.resolve schedA (Vc.mk (α := Unit) (RawVc.localCell 0 0))
        ≠ Except.ok (Vc.mk (RawVc.localCell 0 0)) := by
  refine ⟨rfl, ?_⟩
  intro h
  simp [Vc.resolve, RawVc.resolve, schedA] at h

/-- C2 (amended): resolution is idempotent — whenever `resolve` succeeds,
resolving the result again succeeds and returns it unchanged — and a handle
whose locator is already the canonical `TaskCell` variant is returned
unchanged; a settled-but-local `LocalCell` locator is instead upgraded to a
task cell. -/
theorem resolve_idempotent {α : Type} (s : Scheduler) (vc r : Vc α)
    (h : Vc.resolve s vc = Except.ok r) :
    Vc.resolve s r = Except.ok r
    ∧ ∀ (w : Vc α) (t : TaskId) (c : CellId), w.node = RawVc.taskCell t c →
        Vc.resolve s w = Except.ok w := by
  have hstep : ∀ (w : Vc α) (t : TaskId) (c : CellId), w.node = RawVc.taskCell t c →
      Vc.resolve s w = Except.ok w := by
    intro w t c hw
    obtain ⟨node⟩ := w
    simp only [Vc.mk.injEq] at hw ⊢
    subst hw
    rfl
  refine ⟨?_, hstep⟩
  obtain ⟨node⟩ := vc
  obtain ⟨rn⟩ := r
  rw [Vc.resolve] at h
  cases hres : RawVc.resolve s node with
  | error e => rw [hres] at h; simp at h
  | ok m =>
    rw [hres] at h
    simp only [Except.ok.injEq, Vc.mk.injEq] at h
    subst h
    obtain ⟨t, c, hm⟩ := RawVc.resolve_ok_taskCell s hres
    exact hstep (Vc.mk m) t c (by simpa using hm)

/-- Witness for C2 (amended) at a pending-output handle resolved under the
concrete scheduler. -/
theorem resolve_idempotent_witness :
    Vc.resolve schedA (Vc.mk (α := Unit) (RawVc.taskCell 1 (CellId.mk 0 0)))
      = Except.ok (Vc.mk (RawVc.taskCell 1 (CellId.mk 0 0))) :=
  (resolve_idempotent schedA (Vc.mk (RawVc.taskOutput 0))
    (Vc.mk (RawVc.taskCell 1 (CellId.mk 0 0))) rfl).1

/-- Outcome of an operation that may hit `unreachable!` (a panic) besides
failing with a fatal error or succeeding. -/
inductive PanicOr (α : Type) where
  | panicked
  | error (e : FatalError)
  | ok (a : α)
deriving Repr

/-- Modelled from the spec: the process-wide type registry collaborator,
populated at startup and read-only afterward. `value_type_name` is the
`name` of `get_value_type(id)`; `impls` is the
`(concrete_type_id, capability_id)` implementation table; `known_traits`
lists the capability ids registered at startup, so a lookup of an id outside
it cannot be completed. -/
structure Registry where
  value_type_name : ValueTypeId → String
  impls : List (ValueTypeId × TraitTypeId)
  known_traits : List TraitTypeId

/-- The `Vc::debug_identifier` method: resolves the handle, then formats
`"{TypeName}#{index}: {task_id}"` from the registry entry of the resolved
task cell's value type id; any other locator variant hits `unreachable!`. -/
def Vc.debug_identifier {α : Type} (s : Scheduler) (reg : Registry) (vc : Vc α) :
    PanicOr String :=
  match Vc.resolve s vc with
  | .error e => .error e
  | .ok resolved =>
    match resolved.node with
    | .taskCell task_id c =>
      .ok (reg.value_type_name c.type_id ++ "#" ++ toString c.index
        ++ ": " ++ toString task_id)
    | _ => .panicked

/-- C7: whenever `resolve` succeeds its result is the settled `TaskCell`
variant, so `debug_identifier`'s fallback branch is unreachable and it
returns exactly the `"{TypeName}#{index}: {task_id}"` string built from the
registry entry, the cell index and the owning task id. -/
theorem debug_identifier_no_panic {α : Type} (s : Scheduler) (reg : Registry)
    (vc r : Vc α) (h : Vc.resolve s vc = Except.ok r) :
    (∃ t c, r.node = RawVc.taskCell t c)
    ∧ ∀ (t : TaskId) (c : CellId), r.node = RawVc.taskCell t c →
        Vc.debug_identifier s reg vc =
          PanicOr.ok (reg.value_type_name c.type_id ++ "#" ++ toString c.index
            ++ ": " ++ toString t) := by
  constructor
  · obtain ⟨node⟩ := vc
    obtain ⟨rn⟩ := r
    rw [Vc.resolve] at h
    cases hres : RawVc.resolve s node with
    | error e => rw [hres] at h; simp at h
    | ok m =>
      rw [hres] at h
      simp only [Except.ok.injEq, Vc.mk.injEq] at h
      subst h
      exact RawVc.resolve_ok_taskCell s hres
  · intro t c hnode
    simp only [Vc.debug_identifier, h]
    rw [hnode]

/-- Concrete registry used for closed evaluations: every value type is named
`T`, value type 0 implements capability 7, and capabilities 7 and 8 are
registered. -/
def regA : Registry where
  value_type_name := fun _ => "T"
  impls := [(0, 7)]
  known_traits := [7, 8]

/-- Witness for C7 at a pending-output handle under the concrete scheduler
and registry. -/
theorem debug_identifier_no_panic_witness :
    Vc.debug_identifier schedA regA (Vc.mk (α := Unit) (RawVc.taskOutput 0))
      = PanicOr.ok "T#0: 1" := by
  have h := (debug_identifier_no_panic schedA regA (Vc.mk (α := Unit) (RawVc.taskOutput 0))
    (Vc.mk (RawVc.taskCell 1 (CellId.mk 0 0))) rfl).2 1 (CellId.mk 0 0) rfl
  exact h.trans (by rfl)

/-- Metadata of the currently executing function, as returned by
`try_get_function_meta()`: whether the function was declared with
`local_cells`. -/
structure FunctionMeta where
  local_cells : Bool
deriving DecidableEq, Repr

/-- Modelled from the spec: the execution-local state consulted by cell
creation, which lives in the manager outside `src/`. `function_meta` is what
`try_get_function_meta()` returns; `execution_id` identifies the current
in-flight execution; `local_cell_counter` is the per-execution local-cell
counter; `local_cells_store` holds the slots already allocated in this
execution, in allocation order. -/
structure TaskState (V : Type) where
  function_meta : Option FunctionMeta
  execution_id : ExecutionId
  local_cell_counter : Nat
  local_cells_store : List (LocalCellId × V)

/-- Modelled from the spec: `create_local_cell(execution_id) ->
(execution_id, local_cell_id)` — allocates a fresh slot holding `content`,
addressed by the per-execution local-cell counter, and bumps the counter. -/
def create_local_cell {V : Type} (st : TaskState V) (content : V) :
    (ExecutionId × LocalCellId) × TaskState V :=
  ((st.execution_id, st.local_cell_counter),
   { st with
      local_cell_counter := st.local_cell_counter + 1
      local_cells_store := st.local_cells_store ++ [(st.local_cell_counter, content)] })

/-- The `Vc::local_cell_private` method: shrinks the contents, allocates a
fresh local cell holding them via `create_local_cell`, and wraps the
resulting `(execution_id, local_cell_id)` pair in a `LocalCell` locator.
`shrink` and `cell_mode` stand for the `ShrinkToFit::shrink_to_fit` and
`T::CellMode` dictionary entries of the value type; `cell_mode` is never
used on this path. -/
def Vc.local_cell_private {α V : Type} (shrink : V → V) (cell_mode : V → Vc α)
    (st : TaskState V) (inner : V) : Vc α × TaskState V :=
  let shrunk := shrink inner
  let r := create_local_cell st shrunk
  ({ node := RawVc.localCell r.1.1 r.1.2 }, r.2)

/-- The `Vc::cell_private` method: shrinks the contents, then either
delegates the (already shrunk) contents to `local_cell_private` — when
`try_get_function_meta().map(|meta| meta.local_cells).unwrap_or(false)`
holds — or dispatches them to the value type's `CellMode`. -/
def Vc.cell_private {α V : Type} (shrink : V → V) (cell_mode : V → Vc α)
    (st : TaskState V) (inner : V) : Vc α × TaskState V :=
  let shrunk := shrink inner
  if (st.function_meta.map (fun m => m.local_cells)).getD false then
    Vc.local_cell_private shrink cell_mode st shrunk
  else
    (cell_mode shrunk, st)

/-- The `Vc::cell` method generated for transparent value types: delegates to
`cell_private`. -/
def Vc.cell {α V : Type} (shrink : V → V) (cell_mode : V → Vc α)
    (st : TaskState V) (inner : V) : Vc α × TaskState V :=
  Vc.cell_private shrink cell_mode st inner

/-- The `Vc::local_cell` method: delegates to `local_cell_private`; the value
type's `CellMode` is not consulted. -/
def Vc.local_cell {α V : Type} (shrink : V → V) (cell_mode : V → Vc α)
    (st : TaskState V) (inner : V) : Vc α × TaskState V :=
  Vc.local_cell_private shrink cell_mode st inner

/-- Concrete cell-mode dispatch used for closed evaluations: returns a fixed
task-cell handle and stores nothing locally. -/
def modeA : Nat → Vc Unit := fun _ => { node := RawVc.taskCell 0 ⟨0, 0⟩ }

/-- Concrete execution state whose current function was declared with
`local_cells`. -/
def stLocalA : TaskState Nat where
  function_meta := some { local_cells := true }
  execution_id := 4
  local_cell_counter := 0
  local_cells_store := []

/-- C5 counterexample: with a non-idempotent shrink function (`Nat.succ`)
and the `local_cells` flag set, `cell_private` places `shrink (shrink 0) = 2`
in the new cell, not `shrink 0 = 1` — shrinking happens twice on this path,
because `cell_private` shrinks and then delegates to `local_cell_private`,
which shrinks again. -/
theorem cell_shrink_once_cex :
    (Vc.cell_private Nat.succ modeA stLocalA 0).2.local_cells_store = [(0, 2)]
    ∧ Nat.succ 0 ≠ 2 := by
  exact ⟨rfl, by decide⟩

/-- C5 (amended): each of `cell_private` and `local_cell_private` applies
`shrink_to_fit` exactly once to its own argument at creation time and never
afterwards, so a direct `local_cell_private` call stores exactly the
once-shrunk input, the global dispatch hands the `CellMode` exactly the
once-shrunk input, but `cell_private` with the `local_cells` flag set stores
the twice-shrunk input (equal to once-shrunk only when shrinking is
idempotent); previously created cells are left unmodified in every case. -/
theorem cell_shrink_once_amended {α V : Type} (shrink : V → V) (cell_mode : V → Vc α)
    (st : TaskState V) (inner : V) :
    (Vc.local_cell_private shrink cell_mode st inner).2.local_cells_store
        = st.local_cells_store ++ [(st.local_cell_counter, shrink inner)]
    ∧ Vc.cell_private shrink cell_mode { st with function_meta := none } inner
        = (cell_mode (shrink inner), { st with function_meta := none })
    ∧ Vc.cell_private shrink cell_mode
          { st with function_meta := some { local_cells := false } } inner
        = (cell_mode (shrink inner),
           { st with function_meta := some { local_cells := false } })
    ∧ (Vc.cell_private shrink cell_mode
          { st with function_meta := some { local_cells := true } } inner).2.local_cells_store
        = st.local_cells_store ++ [(st.local_cell_counter, shrink (shrink inner))] :=
  ⟨rfl, rfl, rfl, rfl⟩

/-- C9: `cell_private` does not always create a global cell — whenever the
current function metadata has `local_cells` set it delegates the shrunk
contents to `local_cell_private` and yields a `LocalCell` locator; with no
metadata, or with the flag unset, it dispatches to the value type's
`CellMode`. -/
theorem cell_private_local_dispatch {α V : Type} (shrink : V → V) (cell_mode : V → Vc α)
    (st : TaskState V) (inner : V) :
    Vc.cell_private shrink cell_mode
          { st with function_meta := some { local_cells := true } } inner
        = Vc.local_cell_private shrink cell_mode
            { st with function_meta := some { local_cells := true } } (shrink inner)
    ∧ (Vc.cell_private shrink cell_mode
          { st with function_meta := some { local_cells := true } } inner).1.node
        = RawVc.localCell st.execution_id st.local_cell_counter
    ∧ Vc.cell_private shrink cell_mode { st with function_meta := none } inner
        = (cell_mode (shrink inner), { st with function_meta := none })
    ∧ Vc.cell_private shrink cell_mode
          { st with function_meta := some { local_cells := false } } inner
        = (cell_mode (shrink inner),
           { st with function_meta := some { local_cells := false } }) :=
  ⟨rfl, rfl, rfl, rfl⟩

/-- C6: `local_cell_private` (and `local_cell`) always allocates a fresh slot
scoped to the current execution id — the returned locator is the `LocalCell`
variant carrying the execution id and the freshly assigned counter value,
which names no previously allocated slot — and it never consults the value
type's `CellMode` (the result is the same for any two mode dictionaries). -/
theorem local_cell_fresh {α V : Type} (shrink : V → V) (m₁ m₂ : V → Vc α)
    (st : TaskState V) (inner : V)
    (hinv : ∀ p ∈ st.local_cells_store, p.1 < st.local_cell_counter) :
    (Vc.local_cell_private shrink m₁ st inner).1.node
        = RawVc.localCell st.execution_id st.local_cell_counter
    ∧ (Vc.local_cell_private shrink m₁ st inner).2.local_cell_counter
        = st.local_cell_counter + 1
    ∧ (∀ p ∈ st.local_cells_store, p.1 ≠ st.local_cell_counter)
    ∧ Vc.local_cell_private shrink m₁ st inner = Vc.local_cell_private shrink m₂ st inner
    ∧ Vc.local_cell shrink m₁ st inner = Vc.local_cell_private shrink m₁ st inner
    ∧ (∀ p ∈ (Vc.local_cell_private shrink m₁ st inner).2.local_cells_store,
        p.1 < (Vc.local_cell_private shrink m₁ st inner).2.local_cell_counter) := by
  refine ⟨rfl, rfl, fun p hp => Nat.ne_of_lt (hinv p hp), rfl, rfl, fun p hp => ?_⟩
  simp only [Vc.local_cell_private, create_local_cell, List.mem_append,
    List.mem_singleton] at hp
  cases hp with
  | inl hold => exact Nat.lt_succ_of_lt (hinv p hold)
  | inr hnew =>
    rw [hnew]
    exact Nat.lt_succ_self st.local_cell_counter

/-- Witness for C6 at a concrete empty execution state. -/
theorem local_cell_fresh_witness :
    (Vc.local_cell_private Nat.succ modeA stLocalA 5).1.node = RawVc.localCell 4 0 :=
  (local_cell_fresh Nat.succ modeA modeA stLocalA 5 (by simp [stLocalA])).1

/-- Error type of the dynamic cast operations (`ResolveTypeError`): either
the registry lookup itself cannot be completed (unknown capability id), or
an upstream dependency failed fatally. -/
inductive ResolveTypeError where
  | unknownTrait (t : TraitTypeId)
  | fatal (e : FatalError)
deriving DecidableEq, Repr

/-- Modelled from the spec: `locator.resolve_trait(capability_id) ->
Option<settled_locator> | fatal_error` — resolves the locator, reads the
concrete value type id off the settled cell, and consults the registry's
implementation table: the result is present iff the concrete type implements
the capability, absent otherwise; an unknown capability id is a resolve-type
failure, and an upstream fatal error is propagated distinctly. -/
def RawVc.resolve_trait (s : Scheduler) (reg : Registry) (trait_id : TraitTypeId)
    (r : RawVc) : Except ResolveTypeError (Option RawVc) :=
  if reg.known_traits.contains trait_id then
    match RawVc.resolve s r with
    | .error e => .error (.fatal e)
    | .ok settled =>
      match settled with
      | .taskCell t c =>
        if reg.impls.contains (c.type_id, trait_id) then
          .ok (some (.taskCell t c))
        else
          .ok none
      | _ => .ok none
  else
    .error (.unknownTrait trait_id)

/-- The `Vc::try_resolve_sidecast::<K>` method: calls `resolve_trait` with
`K`'s trait type id (`k_trait`) and retypes a present result, resolving the
handle as a side effect. -/
def Vc.try_resolve_sidecast {α : Type} (β : Type) (s : Scheduler) (reg : Registry)
    (k_trait : TraitTypeId) (vc : Vc α) : Except ResolveTypeError (Option (Vc β)) :=
  match RawVc.resolve_trait s reg k_trait vc.node with
  | .error e => .error e
  | .ok r => .ok (r.map fun raw => { node := raw })

/-- The `Vc::try_resolve_downcast::<K>` method: identical body to
`try_resolve_sidecast` — `resolve_trait` with `K`'s trait type id, mapping a
present settled locator into a retyped handle. -/
def Vc.try_resolve_downcast {α : Type} (β : Type) (s : Scheduler) (reg : Registry)
    (k_trait : TraitTypeId) (vc : Vc α) : Except ResolveTypeError (Option (Vc β)) :=
  match RawVc.resolve_trait s reg k_trait vc.node with
  | .error e => .error e
  | .ok r => .ok (r.map fun raw => { node := raw })

/-- C4: with the capability id registered and the handle resolving to a cell
of concrete value type `c.type_id`, `try_resolve_downcast` and
`try_resolve_sidecast` return the present, resolved, retyped handle iff the
registry's table says the concrete type implements the capability, and the
absent option otherwise — never the error variant; the error variant arises
exactly when the lookup itself cannot be completed (capability id not
registered) or an upstream dependency failed fatally. -/
theorem try_resolve_downcast_registry {α : Type} (β : Type) (s : Scheduler)
    (reg : Registry) (k : TraitTypeId) (vc : Vc α) (t : TaskId) (c : CellId)
    (hknown : reg.known_traits.contains k = true)
    (hres : RawVc.resolve s vc.node = Except.ok (RawVc.taskCell t c)) :
    Vc.try_resolve_downcast β s reg k vc
        = Except.ok (if reg.impls.contains (c.type_id, k)
            then some (Vc.mk (RawVc.taskCell t c)) else none)
    ∧ Vc.try_resolve_sidecast β s reg k vc
        = Except.ok (if reg.impls.contains (c.type_id, k)
            then some (Vc.mk (RawVc.taskCell t c)) else none)
    ∧ (∀ e, Vc.try_resolve_downcast β s reg k vc ≠ Except.error e
        ∧ Vc.try_resolve_sidecast β s reg k vc ≠ Except.error e)
    ∧ Vc.try_resolve_downcast β s { reg with known_traits := [] } k vc
        = Except.error (ResolveTypeError.unknownTrait k)
    ∧ (∀ (w : Vc α) (e : FatalError), RawVc.resolve s w.node = Except.error e →
        Vc.try_resolve_downcast β s reg k w = Except.error (ResolveTypeError.fatal e)) := by
  have hk : k ∈ reg.known_traits := by simpa using hknown
  have hdc : Vc.try_resolve_downcast β s reg k vc
      = Except.ok (if reg.impls.contains (c.type_id, k)
          then some (Vc.mk (RawVc.taskCell t c)) else none) := by
    by_cases hc : (c.type_id, k) ∈ reg.impls
    · simp [Vc.try_resolve_downcast, RawVc.resolve_trait, hres, hk, hc]
    · simp [Vc.try_resolve_downcast, RawVc.resolve_trait, hres, hk, hc]
  have hsc : Vc.try_resolve_sidecast β s reg k vc
      = Except.ok (if reg.impls.contains (c.type_id, k)
          then some (Vc.mk (RawVc.taskCell t c)) else none) := by
    by_cases hc : (c.type_id, k) ∈ reg.impls
    · simp [Vc.try_resolve_sidecast, RawVc.resolve_trait, hres, hk, hc]
    · simp [Vc.try_resolve_sidecast, RawVc.resolve_trait, hres, hk, hc]
  refine ⟨hdc, hsc, fun e => ⟨?_, ?_⟩, ?_, fun w e hw => ?_⟩
  · rw [hdc]; intro h; cases h
  · rw [hsc]; intro h; cases h
  · simp [Vc.try_resolve_downcast, RawVc.resolve_trait]
  · simp [Vc.try_resolve_downcast, RawVc.resolve_trait, hk, hw]

/-- Witness for C4 under the concrete scheduler and registry: value type 0
implements capability 7, so downcasting a pending handle that settles to a
type-0 cell yields the present resolved handle. -/
theorem try_resolve_downcast_registry_witness :
    Vc.try_resolve_downcast Unit schedA regA 7 (Vc.mk (α := Unit) (RawVc.taskOutput 0))
      = Except.ok (some (Vc.mk (RawVc.taskCell 1 (CellId.mk 0 0)))) := by
  have h := (try_resolve_downcast_registry Unit schedA regA 7
    (Vc.mk (α := Unit) (RawVc.taskOutput 0)) 1 (CellId.mk 0 0) rfl rfl).1
  exact h.trans (by rfl)

/-- Modelled from the spec: the collectibles channel backend, outside
`src/`. `emitted` holds, for each node and capability id, the collectible
values of that capability emitted (as already-resolved handles) by the
subgraph reachable from the node, in emission order and possibly with
repeats. -/
structure CollectiblesState where
  emitted : RawVc → TraitTypeId → List RawVc

/-- Modelled from the spec: `take_collectibles(capability_id)` on a locator —
drains the aggregated collectibles of the given capability, returning them as
a deduplicated set keyed by locator identity and removing them from further
upward aggregation. -/
def RawVc.take_collectibles (cs : CollectiblesState) (vt : TraitTypeId)
    (node : RawVc) : List RawVc × CollectiblesState :=
  ((cs.emitted node vt).dedup,
   { emitted := fun n t => if n = node ∧ t = vt then [] else cs.emitted n t })

/-- Modelled from the spec: `peek_collectibles(capability_id)` on a locator —
the same deduplicated aggregation, non-destructive. -/
def RawVc.peek_collectibles (cs : CollectiblesState) (vt : TraitTypeId)
    (node : RawVc) : List RawVc × CollectiblesState :=
  ((cs.emitted node vt).dedup, cs)

/-- The `CollectiblesSource` implementation for `Vc<T>`: `take_collectibles`
delegates to the node's, retyping each drained handle. -/
def Vc.take_collectibles {α : Type} (β : Type) (cs : CollectiblesState)
    (vt : TraitTypeId) (vc : Vc α) : List (Vc β) × CollectiblesState :=
  let r := RawVc.take_collectibles cs vt vc.node
  (r.1.map fun raw => { node := raw }, r.2)

/-- The `CollectiblesSource` implementation for `Vc<T>`: `peek_collectibles`
delegates to the node's, retyping each handle. -/
def Vc.peek_collectibles {α : Type} (β : Type) (cs : CollectiblesState)
    (vt : TraitTypeId) (vc : Vc α) : List (Vc β) × CollectiblesState :=
  let r := RawVc.peek_collectibles cs vt vc.node
  (r.1.map fun raw => { node := raw }, r.2)

/-- C8: `take_collectibles` and `peek_collectibles` return the same
deduplicated set — no two elements are equal under the handle's
locator-keyed equality, and the underlying locators are pairwise distinct —
and `take_collectibles` additionally removes the drained values from further
upward aggregation while `peek_collectibles` leaves the channel unchanged. -/
theorem collectibles_dedup {α : Type} (β : Type) (cs : CollectiblesState)
    (vt : TraitTypeId) (vc : Vc α) :
    ((Vc.take_collectibles β cs vt vc).1.map Vc.node).Nodup
    ∧ (Vc.take_collectibles β cs vt vc).1.Pairwise (fun a b => (a == b) = false)
    ∧ (Vc.take_collectibles β cs vt vc).1 = (Vc.peek_collectibles β cs vt vc).1
    ∧ (Vc.take_collectibles β cs vt vc).2.emitted vc.node vt = []
    ∧ (Vc.peek_collectibles β cs vt vc).2 = cs := by
  have hd := List.nodup_dedup (cs.emitted vc.node vt)
  refine ⟨?_, ?_, rfl, ?_, rfl⟩
  · rw [Vc.take_collectibles, List.map_map]
    have hid : (Vc.node ∘ fun raw => (⟨raw⟩ : Vc β)) = id := rfl
    rw [hid, List.map_id]
    exact hd
  · rw [Vc.take_collectibles]
    refine List.pairwise_map.mpr ?_
    exact List.Pairwise.imp (fun hne => decide_eq_false hne) hd
  · simp [Vc.take_collectibles, RawVc.take_collectibles]
